import Mathlib

/-!
  Verification of the transactional index-removal operation
  (src/src/mongo/db/catalog/drop_indexes.cpp).

  The embedding follows the source file closely:
  * `stopIndexBuilds` mirrors the anonymous-namespace helper that derives
    `IndexKillCriteria` from the command object's "index" field and asks the
    build subsystem to cancel matching in-flight builds;
  * `wrappedRun` mirrors the executor of the same name: namespace check,
    build cancellation, `nIndexesWas` snapshot, selector dispatch
    (wildcard / name / key pattern / unrecognized);
  * `dropIndexesAttempt` and `dropIndexesLoop` mirror the exported
    `dropIndexes` driver: the `MONGO_WRITE_CONFLICT_RETRY_LOOP` wrapper,
    the `AutoGetDb MODE_X` lock, the replication gate, the
    `WriteUnitOfWork` / `onDropIndex` / `commit` sequence.

  Collaborator subsystems whose code is not part of this file's source
  (the index catalog accessors, the replication coordinator, the retry
  macro, WriteUnitOfWork and the op observer) are modelled from the spec;
  each such definition says so in its doc comment.  Each attempt also
  produces a trace of `Event`s so that the ordering claims (gate before
  catalog access, log append before commit, cancellation versus lock
  acquisition) can be stated as trace properties.
-/

namespace Mongo

/-- A BSON key pattern: an ordered field → direction mapping
(e.g. `{a: 1}`), as carried by an index spec's "key" object. -/
structure KeyPattern where
  fields : List (String × Int)
deriving DecidableEq, Repr

/-- Rendering of a key pattern, standing in for `BSONObj::toString()` in
the key-pattern-not-found error message. -/
def KeyPattern.render (k : KeyPattern) : String :=
  "\x7b " ++ String.intercalate ", " (k.fields.map (fun f => f.1 ++ ": " ++ toString f.2)) ++ " \x7d"

/-- One catalog entry: index name, key pattern and the primary-key flag
(`IndexDescriptor::isIdIndex()`). -/
structure IndexDescriptor where
  name : String
  keyPattern : KeyPattern
  isIdIndex : Bool
deriving DecidableEq, Repr

/-- The index catalog of one collection: its descriptors, ordered by
creation. -/
abbrev IndexCatalog := List IndexDescriptor

/-- A collection handle; it owns an index catalog. -/
structure Collection where
  indexCatalog : IndexCatalog
deriving DecidableEq, Repr

/-- A database handle; `collection` is what `db->getCollection(toDeleteNs)`
returns for the target namespace (`none` when the collection is absent). -/
structure Database where
  collection : Option Collection
deriving DecidableEq, Repr

/-- Modelled from the spec: `IndexCatalog::numIndexesTotal`, the total
number of indexes currently in the catalog. -/
def numIndexesTotal (cat : IndexCatalog) : Nat := cat.length

/-- Modelled from the spec: `IndexCatalog::findIndexByName`, look up a
descriptor by exact name (names are unique within a catalog). -/
def findIndexByName (cat : IndexCatalog) (n : String) : Option IndexDescriptor :=
  cat.find? (fun d => d.name == n)

/-- Modelled from the spec: `IndexCatalog::findIndexByKeyPattern`, look up
a descriptor by exact key-pattern match. -/
def findIndexByKeyPattern (cat : IndexCatalog) (k : KeyPattern) : Option IndexDescriptor :=
  cat.find? (fun d => d.keyPattern == k)

/-- Modelled from the spec: `IndexCatalog::dropAllIndexes(txn,
includingIdIndex)`; with `includingIdIndex = false` it removes every
non-primary-key index and keeps the primary-key index. -/
def dropAllIndexes (cat : IndexCatalog) (includingIdIndex : Bool) : IndexCatalog :=
  if includingIdIndex then [] else cat.filter (fun d => d.isIdIndex)

/-- Modelled from the spec: `IndexCatalog::dropIndex(txn, desc)`, remove
the single given descriptor from the catalog. -/
def dropIndex (cat : IndexCatalog) (desc : IndexDescriptor) : IndexCatalog :=
  cat.erase desc

/-- The "index" field of the dropIndexes command object: a string
(`f.type() == String`), an object (`f.type() == Object`), or anything
else (absent or of another BSON type). -/
inductive BSONIndexField where
  | str (s : String)
  | obj (k : KeyPattern)
  | other
deriving DecidableEq, Repr

/-- Error codes appearing in this operation.  `NotMaster` is the source's
name for the NotPrimary condition.  `WriteConflict` and
`DurabilityFailure` never appear as a returned `Status` of `wrappedRun`;
they model, respectively, a `WriteConflictException` from storage and a
failure of the post-mutation op-observer append (spec taxonomy §7). -/
inductive ErrorCode where
  | NamespaceNotFound
  | IndexNotFound
  | InvalidOptions
  | NotMaster
  | WriteConflict
  | DurabilityFailure
deriving DecidableEq, Repr

/-- `mongo::Status`: OK or an error code with a reason string. -/
inductive Status where
  | ok
  | error (code : ErrorCode) (msg : String)
deriving DecidableEq, Repr

/-- The result `BSONObjBuilder`: the fields `wrappedRun` may append
(`nIndexesWas` and `msg`). -/
structure ObjBuilder where
  nIndexesWas : Option Nat
  msg : Option String
deriving DecidableEq, Repr

/-- An empty result builder. -/
def ObjBuilder.empty : ObjBuilder := { nIndexesWas := none, msg := none }

/-- `IndexCatalog::IndexKillCriteria` as filled in by `stopIndexBuilds`. -/
structure KillCriteria where
  ns : Option String
  name : Option String
  key : Option KeyPattern
deriving DecidableEq, Repr

/-- `stopIndexBuilds`: derive kill criteria from the command object's
"index" field; `none` means no `killMatchingIndexBuilds` call is made
(the field is neither a string nor an object). -/
def stopIndexBuilds (toDeleteNs : String) (indexField : BSONIndexField) : Option KillCriteria :=
  match indexField with
  | .str s =>
      if s = "*" then some { ns := some toDeleteNs, name := none, key := none }
      else some { ns := none, name := some s, key := none }
  | .obj k => some { ns := none, name := none, key := some k }
  | .other => none

/-- Observable events of one attempt, used to state ordering properties:
`lockDbX` is the `AutoGetDb MODE_X` exclusive lock acquisition,
`checkCanAcceptWrites` the replication-gate query, `killBuilds` the
`killMatchingIndexBuilds` call, `catalogRead` the `numIndexesTotal`
snapshot (the first index-catalog access), `catalogMutate` a
`dropIndex`/`dropAllIndexes` call, `opLogAppend` the
`OpObserver::onDropIndex` durable recording, `commit` the
`WriteUnitOfWork::commit` that makes the mutation visible. -/
inductive Event where
  | lockDbX
  | checkCanAcceptWrites
  | killBuilds (c : KillCriteria)
  | catalogRead
  | catalogMutate
  | opLogAppend
  | commit
deriving DecidableEq, Repr

/-- The outcome of `wrappedRun`: the returned `Status`, the result
builder, the catalog state as staged inside the write unit of work, and
the trace of events that occurred inside `wrappedRun`. -/
structure RunResult where
  status : Status
  builder : ObjBuilder
  db : Option Database
  events : List Event
deriving DecidableEq, Repr

/-- `wrappedRun(txn, dbname, toDeleteNs, db, jsobj, anObjBuilder)`:
the executor.  Mirrors the source line by line: null-check of
db/collection, `stopIndexBuilds`, append `nIndexesWas =
numIndexesTotal`, then dispatch on the selector form. -/
def wrappedRun (toDeleteNs : String) (db : Option Database)
    (indexField : BSONIndexField) (anObjBuilder : ObjBuilder) : RunResult :=
  match db with
  | none =>
      { status := .error .NamespaceNotFound "ns not found"
        builder := anObjBuilder, db := none, events := [] }
  | some d =>
    match d.collection with
    | none =>
        { status := .error .NamespaceNotFound "ns not found"
          builder := anObjBuilder, db := some d, events := [] }
    | some coll =>
      let killEvs : List Event :=
        match stopIndexBuilds toDeleteNs indexField with
        | some c => [.killBuilds c]
        | none => []
      let cat := coll.indexCatalog
      let b1 : ObjBuilder := { anObjBuilder with nIndexesWas := some (numIndexesTotal cat) }
      let evs := killEvs ++ [Event.catalogRead]
      match indexField with
      | .str indexToDelete =>
        if indexToDelete = "*" then
          { status := .ok
            builder := { b1 with msg := some "non-_id indexes dropped for collection" }
            db := some { collection := some { indexCatalog := dropAllIndexes cat false } }
            events := evs ++ [Event.catalogMutate] }
        else
          match findIndexByName cat indexToDelete with
          | none =>
              { status := .error .IndexNotFound
                  ("index not found with name [" ++ indexToDelete ++ "]")
                builder := b1, db := some d, events := evs }
          | some desc =>
            if desc.isIdIndex then
              { status := .error .InvalidOptions "cannot drop _id index"
                builder := b1, db := some d, events := evs }
            else
              { status := .ok, builder := b1
                db := some { collection := some { indexCatalog := dropIndex cat desc } }
                events := evs ++ [Event.catalogMutate] }
      | .obj k =>
        match findIndexByKeyPattern cat k with
        | none =>
            { status := .error .InvalidOptions
                ("can't find index with key: " ++ KeyPattern.render k)
              builder := b1, db := some d, events := evs }
        | some desc =>
          if desc.isIdIndex then
            { status := .error .InvalidOptions "cannot drop _id index"
              builder := b1, db := some d, events := evs }
          else
            { status := .ok, builder := b1
              db := some { collection := some { indexCatalog := dropIndex cat desc } }
              events := evs ++ [Event.catalogMutate] }
      | .other =>
          { status := .error .IndexNotFound "invalid index name spec"
            builder := b1, db := some d, events := evs }

/-- The per-attempt environment of the driver, modelled from the spec as
injected oracles: whether this operation's writes are replicated
(`txn->writesAreReplicated()`), whether the replication coordinator
currently accepts writes for the database
(`canAcceptWritesForDatabase`), whether the storage layer throws a
`WriteConflictException` during this attempt's catalog operations, and
whether the `onDropIndex` durable recording succeeds. -/
structure AttemptEnv where
  writesAreReplicated : Bool
  canAcceptWritesForDatabase : Bool
  writeConflict : Bool
  opObserverOk : Bool
deriving DecidableEq, Repr

/-- The replication-gate condition of the driver:
`txn->writesAreReplicated() && !canAcceptWritesForDatabase(dbName)`. -/
def gateFires (env : AttemptEnv) : Bool :=
  env.writesAreReplicated && !env.canAcceptWritesForDatabase

/-- The outcome of one attempt of the driver: either a
`WriteConflictException` was thrown (the attempt is discarded wholesale)
or the attempt returned a `Status`, the builder, the committed database
state and its event trace. -/
inductive AttemptResult where
  | conflict (events : List Event)
  | done (status : Status) (builder : ObjBuilder) (db : Option Database) (events : List Event)
deriving DecidableEq, Repr

/-- The trace of an attempt outcome. -/
def AttemptResult.events : AttemptResult → List Event
  | .conflict evs => evs
  | .done _ _ _ evs => evs

/-- Modelled from the spec: one iteration of the `dropIndexes` driver.
Mirrors the source body: acquire the `AutoGetDb MODE_X` exclusive lock,
evaluate the replication gate (return `NotMaster` if it fires), open a
`WriteUnitOfWork`, run `wrappedRun`, and on success durably record via
`onDropIndex` and then `commit`.  The `WriteUnitOfWork` rollback
semantics (a mutation is visible only after `commit`) and the
possibility that storage throws a `WriteConflictException` or that the
op-observer append fails come from the spec; they are driven by `env`. -/
def dropIndexesAttempt (env : AttemptEnv) (ns : String) (db : Option Database)
    (indexField : BSONIndexField) (result : ObjBuilder) : AttemptResult :=
  let ev0 : List Event := [.lockDbX, .checkCanAcceptWrites]
  if gateFires env then
    .done (.error .NotMaster ("Not primary while dropping indexes in " ++ ns)) result db ev0
  else if env.writeConflict then
    .conflict ev0
  else
    let r := wrappedRun ns db indexField result
    match r.status with
    | .ok =>
        if env.opObserverOk then
          .done .ok r.builder r.db (ev0 ++ r.events ++ [.opLogAppend, .commit])
        else
          .done (.error .DurabilityFailure "onDropIndex failed") r.builder db
            (ev0 ++ r.events ++ [.opLogAppend])
    | .error c m => .done (.error c m) r.builder db (ev0 ++ r.events)

/-- Modelled from the spec: the `MONGO_WRITE_CONFLICT_RETRY_LOOP` driver
of `dropIndexes`.  Each list element is the environment of one attempt;
a write-conflict attempt is discarded and the loop retries with the
original inputs; any returning attempt terminates the loop.  `none`
means every supplied attempt conflicted, i.e. the loop is still
retrying (it is unbounded in the source). -/
def dropIndexesLoop : List AttemptEnv → String → Option Database → BSONIndexField →
    ObjBuilder → Option (Status × ObjBuilder × Option Database)
  | [], _, _, _, _ => none
  | env :: rest, ns, db, indexField, result =>
    match dropIndexesAttempt env ns db indexField result with
    | .conflict _ => dropIndexesLoop rest ns db indexField result
    | .done st b db2 _ => some (st, b, db2)

/-- `dropIndexes(txn, ns, idxDescriptor, result)`: the exported entry
point, starting from an empty result builder. -/
def dropIndexes (envs : List AttemptEnv) (ns : String) (db : Option Database)
    (indexField : BSONIndexField) : Option (Status × ObjBuilder × Option Database) :=
  dropIndexesLoop envs ns db indexField ObjBuilder.empty

/-- Index of the first event satisfying `p`, if any. -/
def firstIdx (p : Event → Bool) : List Event → Option Nat
  | [] => none
  | e :: es => if p e then some 0 else (firstIdx p es).map (· + 1)

/-- Is this a `killBuilds` event? -/
def isKillEvent : Event → Bool
  | .killBuilds _ => true
  | _ => false

/-- Is this the exclusive-lock acquisition event? -/
def isLockEvent : Event → Bool
  | .lockDbX => true
  | _ => false

/-- Is this an index-catalog access (read or mutation)? -/
def isCatalogEvent : Event → Bool
  | .catalogRead => true
  | .catalogMutate => true
  | _ => false

/-- The spec's ordering claim on build cancellation, as a trace
predicate: if an attempt both cancels builds and takes the exclusive
lock, the cancellation happens strictly before the lock acquisition
(so it does not run under the lock). -/
def cancelCompletesBeforeLock (evs : List Event) : Bool :=
  match firstIdx isKillEvent evs, firstIdx isLockEvent evs with
  | some i, some j => decide (i < j)
  | _, _ => true

/-- The ordering the source actually implements: any build cancellation
happens strictly after the exclusive-lock acquisition and strictly
before the first index-catalog access of the attempt. -/
def killAfterLockBeforeCatalog (evs : List Event) : Bool :=
  match firstIdx isKillEvent evs with
  | none => true
  | some i =>
    (match firstIdx isLockEvent evs with
     | some j => decide (j < i)
     | none => false) &&
    (match firstIdx isCatalogEvent evs with
     | some c => decide (i < c)
     | none => true)

/-- A database handle whose target collection exists and has catalog
`cat`. -/
def mkDb (cat : IndexCatalog) : Option Database :=
  some { collection := some { indexCatalog := cat } }

/-- The `_id_` primary-key index descriptor of the running example. -/
def idDesc : IndexDescriptor :=
  { name := "_id_", keyPattern := { fields := [("_id", 1)] }, isIdIndex := true }

/-- A secondary index `a_1` of the running example. -/
def aDesc : IndexDescriptor :=
  { name := "a_1", keyPattern := { fields := [("a", 1)] }, isIdIndex := false }

/-- A secondary index `b_1` of the running example. -/
def bDesc : IndexDescriptor :=
  { name := "b_1", keyPattern := { fields := [("b", 1)] }, isIdIndex := false }

/-- The running example catalog `[_id_, a_1, b_1]` of the spec (§8). -/
def exCat : IndexCatalog := [idDesc, aDesc, bDesc]

/-- An attempt environment in which nothing goes wrong: replicated
writes, the node is primary, no write conflict, durable recording
succeeds. -/
def benignEnv : AttemptEnv :=
  { writesAreReplicated := true, canAcceptWritesForDatabase := true
    writeConflict := false, opObserverOk := true }

/-- A benign environment except that storage throws a
`WriteConflictException` during the attempt. -/
def conflictEnv : AttemptEnv :=
  { benignEnv with writeConflict := true }

/-- A benign environment except that the node cannot accept writes for
the database (not primary). -/
def notPrimaryEnv : AttemptEnv :=
  { benignEnv with canAcceptWritesForDatabase := false }

/-- A benign environment except that the `onDropIndex` durable recording
fails. -/
def noDurabilityEnv : AttemptEnv :=
  { benignEnv with opObserverOk := false }

/-- Every event `wrappedRun` emits is a build cancellation, the
`numIndexesTotal` read, or a catalog mutation; in particular it never
emits `opLogAppend`, `commit` or a lock acquisition. -/
theorem wrappedRun_events_mem (ns : String) (db : Option Database) (sel : BSONIndexField)
    (b : ObjBuilder) :
    ∀ e ∈ (wrappedRun ns db sel b).events,
      (∃ c, e = Event.killBuilds c) ∨ e = Event.catalogRead ∨ e = Event.catalogMutate := by
  cases db with
  | none => simp [wrappedRun]
  | some d =>
    cases d with
    | mk oc =>
      cases oc with
      | none => simp [wrappedRun]
      | some coll =>
        cases sel with
        | str s =>
            by_cases hs : s = "*"
            · simp [wrappedRun, hs, stopIndexBuilds]
            · cases hfind : findIndexByName coll.indexCatalog s with
              | none => simp [wrappedRun, hs, hfind, stopIndexBuilds]
              | some desc =>
                  by_cases hid : desc.isIdIndex <;>
                    simp [wrappedRun, hs, hfind, hid, stopIndexBuilds]
        | obj k =>
            cases hfind : findIndexByKeyPattern coll.indexCatalog k with
            | none => simp [wrappedRun, hfind, stopIndexBuilds]
            | some desc =>
                by_cases hid : desc.isIdIndex <;>
                  simp [wrappedRun, hfind, hid, stopIndexBuilds]
        | other => simp [wrappedRun, stopIndexBuilds]

/-- The events of `wrappedRun` either contain no build cancellation at
all, or start with the single cancellation followed directly by the
`numIndexesTotal` catalog read. -/
theorem wrappedRun_events_kill_shape (ns : String) (db : Option Database)
    (sel : BSONIndexField) (b : ObjBuilder) :
    (∀ c, Event.killBuilds c ∉ (wrappedRun ns db sel b).events) ∨
    ∃ c t, (wrappedRun ns db sel b).events = Event.killBuilds c :: Event.catalogRead :: t := by
  cases db with
  | none => left; simp [wrappedRun]
  | some d =>
    cases d with
    | mk oc =>
      cases oc with
      | none => left; simp [wrappedRun]
      | some coll =>
        cases sel with
        | str s =>
            by_cases hs : s = "*"
            · right
              refine ⟨{ ns := some ns, name := none, key := none }, [Event.catalogMutate], ?_⟩
              simp [wrappedRun, hs, stopIndexBuilds]
            · cases hfind : findIndexByName coll.indexCatalog s with
              | none =>
                  right
                  refine ⟨{ ns := none, name := some s, key := none }, [], ?_⟩
                  simp [wrappedRun, hs, hfind, stopIndexBuilds]
              | some desc =>
                  by_cases hid : desc.isIdIndex
                  · right
                    refine ⟨{ ns := none, name := some s, key := none }, [], ?_⟩
                    simp [wrappedRun, hs, hfind, hid, stopIndexBuilds]
                  · right
                    refine ⟨{ ns := none, name := some s, key := none },
                      [Event.catalogMutate], ?_⟩
                    simp [wrappedRun, hs, hfind, hid, stopIndexBuilds]
        | obj k =>
            cases hfind : findIndexByKeyPattern coll.indexCatalog k with
            | none =>
                right
                refine ⟨{ ns := none, name := none, key := some k }, [], ?_⟩
                simp [wrappedRun, hfind, stopIndexBuilds]
            | some desc =>
                by_cases hid : desc.isIdIndex
                · right
                  refine ⟨{ ns := none, name := none, key := some k }, [], ?_⟩
                  simp [wrappedRun, hfind, hid, stopIndexBuilds]
                · right
                  refine ⟨{ ns := none, name := none, key := some k },
                    [Event.catalogMutate], ?_⟩
                  simp [wrappedRun, hfind, hid, stopIndexBuilds]
        | other => left; simp [wrappedRun, stopIndexBuilds]

/-- `wrappedRun` never returns a `WriteConflict` status: in the source a
write conflict is an exception of the storage layer, not a `Status`. -/
theorem wrappedRun_status_ne_wc (ns : String) (db : Option Database) (sel : BSONIndexField)
    (b : ObjBuilder) (m : String) :
    (wrappedRun ns db sel b).status ≠ .error .WriteConflict m := by
  cases db with
  | none => simp [wrappedRun]
  | some d =>
    cases d with
    | mk oc =>
      cases oc with
      | none => simp [wrappedRun]
      | some coll =>
        cases sel with
        | str s =>
            by_cases hs : s = "*"
            · simp [wrappedRun, hs]
            · cases hfind : findIndexByName coll.indexCatalog s with
              | none => simp [wrappedRun, hs, hfind]
              | some desc => by_cases hid : desc.isIdIndex <;> simp [wrappedRun, hs, hfind, hid]
        | obj k =>
            cases hfind : findIndexByKeyPattern coll.indexCatalog k with
            | none => simp [wrappedRun, hfind]
            | some desc => by_cases hid : desc.isIdIndex <;> simp [wrappedRun, hfind, hid]
        | other => simp [wrappedRun]

/-- When the replication gate fires, the attempt returns `NotMaster` at
once: builder and database untouched, trace limited to the lock
acquisition and the gate query. -/
theorem attempt_notMaster (env : AttemptEnv) (ns : String) (db : Option Database)
    (sel : BSONIndexField) (b : ObjBuilder) (h : gateFires env = true) :
    dropIndexesAttempt env ns db sel b =
      .done (.error .NotMaster ("Not primary while dropping indexes in " ++ ns)) b db
        [.lockDbX, .checkCanAcceptWrites] := by
  simp [dropIndexesAttempt, h]

/-- When the gate passes but storage throws a write conflict, the
attempt is a `conflict`. -/
theorem attempt_conflict (env : AttemptEnv) (ns : String) (db : Option Database)
    (sel : BSONIndexField) (b : ObjBuilder) (h1 : gateFires env = false)
    (h2 : env.writeConflict = true) :
    dropIndexesAttempt env ns db sel b = .conflict [.lockDbX, .checkCanAcceptWrites] := by
  simp [dropIndexesAttempt, h1, h2]

/-- Every `Status` a completed attempt returns is the `NotMaster` gate
rejection, the durability failure, or the status of `wrappedRun`. -/
theorem attempt_done_status (env : AttemptEnv) (ns : String) (db : Option Database)
    (sel : BSONIndexField) (b : ObjBuilder) (st : Status) (bb : ObjBuilder)
    (db2 : Option Database) (evs : List Event)
    (h : dropIndexesAttempt env ns db sel b = .done st bb db2 evs) :
    st = .error .NotMaster ("Not primary while dropping indexes in " ++ ns) ∨
    st = .error .DurabilityFailure "onDropIndex failed" ∨
    st = (wrappedRun ns db sel b).status := by
  unfold dropIndexesAttempt at h
  by_cases hg : gateFires env = true
  · simp [hg] at h
    exact Or.inl h.1.symm
  · simp [hg] at h
    by_cases hc : env.writeConflict = true
    · simp [hc] at h
    · simp [hc] at h
      cases hst : (wrappedRun ns db sel b).status with
      | ok =>
          rw [hst] at h
          by_cases ho : env.opObserverOk = true
          · simp [ho] at h
            simp_all
          · simp [ho] at h
            simp_all
      | error c m =>
          rw [hst] at h
          simp at h
          simp_all

/-- C1: with the wildcard selector on an existing collection whose
catalog holds N indexes and exactly one primary-key index, `wrappedRun`
succeeds, reports `nIndexesWas = N` and the confirmation message, and
leaves exactly the primary-key index in the catalog — also when no
non-primary index existed. -/
theorem c1_wildcard_drops_all_non_id (ns : String) (cat : IndexCatalog)
    (idx : IndexDescriptor) (b : ObjBuilder)
    (hid : cat.filter (fun d => d.isIdIndex) = [idx]) :
    (wrappedRun ns (mkDb cat) (.str "*") b).status = .ok ∧
    (wrappedRun ns (mkDb cat) (.str "*") b).builder.nIndexesWas = some (numIndexesTotal cat) ∧
    (wrappedRun ns (mkDb cat) (.str "*") b).builder.msg =
      some "non-_id indexes dropped for collection" ∧
    (wrappedRun ns (mkDb cat) (.str "*") b).db = mkDb [idx] := by
  simp [wrappedRun, mkDb, dropAllIndexes, hid]

/-- Witness for C1 on the spec's running example catalog
`[_id_, a_1, b_1]`. -/
theorem c1_wildcard_drops_all_non_id_witness :
    (wrappedRun "test.t" (mkDb exCat) (.str "*") ObjBuilder.empty).status = .ok ∧
    (wrappedRun "test.t" (mkDb exCat) (.str "*") ObjBuilder.empty).builder.nIndexesWas =
      some (numIndexesTotal exCat) ∧
    (wrappedRun "test.t" (mkDb exCat) (.str "*") ObjBuilder.empty).builder.msg =
      some "non-_id indexes dropped for collection" ∧
    (wrappedRun "test.t" (mkDb exCat) (.str "*") ObjBuilder.empty).db = mkDb [idDesc] :=
  c1_wildcard_drops_all_non_id "test.t" exCat idDesc ObjBuilder.empty (by decide)

/-- C2: a name selector (other than the wildcard string) or a
key-pattern selector that resolves to the primary-key index makes
`wrappedRun` fail with `InvalidOptions` and leaves the catalog
unchanged. -/
theorem c2_id_index_refused (ns n : String) (k : KeyPattern) (cat : IndexCatalog)
    (d : IndexDescriptor) (b : ObjBuilder) :
    (n ≠ "*" → findIndexByName cat n = some d → d.isIdIndex = true →
      (wrappedRun ns (mkDb cat) (.str n) b).status =
        .error .InvalidOptions "cannot drop _id index" ∧
      (wrappedRun ns (mkDb cat) (.str n) b).db = mkDb cat) ∧
    (findIndexByKeyPattern cat k = some d → d.isIdIndex = true →
      (wrappedRun ns (mkDb cat) (.obj k) b).status =
        .error .InvalidOptions "cannot drop _id index" ∧
      (wrappedRun ns (mkDb cat) (.obj k) b).db = mkDb cat) := by
  constructor
  · intro hne hfind hid
    simp [wrappedRun, mkDb, hne, hfind, hid]
  · intro hfind hid
    simp [wrappedRun, mkDb, hfind, hid]

/-- Witness for C2: dropping `_id_` by name and by key pattern on the
example catalog. -/
theorem c2_id_index_refused_witness :
    ((wrappedRun "test.t" (mkDb exCat) (.str "_id_") ObjBuilder.empty).status =
        .error .InvalidOptions "cannot drop _id index" ∧
      (wrappedRun "test.t" (mkDb exCat) (.str "_id_") ObjBuilder.empty).db = mkDb exCat) ∧
    ((wrappedRun "test.t" (mkDb exCat)
          (.obj { fields := [("_id", 1)] }) ObjBuilder.empty).status =
        .error .InvalidOptions "cannot drop _id index" ∧
      (wrappedRun "test.t" (mkDb exCat)
          (.obj { fields := [("_id", 1)] }) ObjBuilder.empty).db = mkDb exCat) :=
  ⟨(c2_id_index_refused "test.t" "_id_" { fields := [("_id", 1)] } exCat idDesc
      ObjBuilder.empty).1 (by decide) (by decide) (by decide),
   (c2_id_index_refused "test.t" "_id_" { fields := [("_id", 1)] } exCat idDesc
      ObjBuilder.empty).2 (by decide) (by decide)⟩

/-- C3: for every selector form, an absent database or an absent
collection makes `wrappedRun` fail with `NamespaceNotFound`, nothing is
appended to the result and no catalog state is touched. -/
theorem c3_namespace_not_found (ns : String) (sel : BSONIndexField) (b : ObjBuilder) :
    (wrappedRun ns none sel b =
      { status := .error .NamespaceNotFound "ns not found"
        builder := b, db := none, events := [] }) ∧
    (wrappedRun ns (some { collection := none }) sel b =
      { status := .error .NamespaceNotFound "ns not found"
        builder := b, db := some { collection := none }, events := [] }) :=
  ⟨rfl, rfl⟩

/-- C4: on an existing collection, an unknown index name fails with
`IndexNotFound` (message naming the index) while an unmatched key
pattern fails with `InvalidOptions` (message describing the pattern) —
two distinct failure kinds. -/
theorem c4_not_found_asymmetry (ns n : String) (k : KeyPattern) (cat : IndexCatalog)
    (b : ObjBuilder) :
    (n ≠ "*" → findIndexByName cat n = none →
      (wrappedRun ns (mkDb cat) (.str n) b).status =
        .error .IndexNotFound ("index not found with name [" ++ n ++ "]")) ∧
    (findIndexByKeyPattern cat k = none →
      (wrappedRun ns (mkDb cat) (.obj k) b).status =
        .error .InvalidOptions ("can't find index with key: " ++ KeyPattern.render k)) ∧
    ErrorCode.IndexNotFound ≠ ErrorCode.InvalidOptions := by
  refine ⟨?_, ?_, by decide⟩
  · intro hne hfind
    simp [wrappedRun, mkDb, hne, hfind]
  · intro hfind
    simp [wrappedRun, mkDb, hfind]

/-- Witness for C4: name `c_1` and pattern `{c: 1}` are absent from the
example catalog. -/
theorem c4_not_found_asymmetry_witness :
    (wrappedRun "test.t" (mkDb exCat) (.str "c_1") ObjBuilder.empty).status =
      .error .IndexNotFound "index not found with name [c_1]" ∧
    (wrappedRun "test.t" (mkDb exCat)
        (.obj { fields := [("c", 1)] }) ObjBuilder.empty).status =
      .error .InvalidOptions "can't find index with key: \x7b c: 1 \x7d" ∧
    ErrorCode.IndexNotFound ≠ ErrorCode.InvalidOptions :=
  ⟨(c4_not_found_asymmetry "test.t" "c_1" { fields := [("c", 1)] } exCat
      ObjBuilder.empty).1 (by decide) (by decide),
   (c4_not_found_asymmetry "test.t" "c_1" { fields := [("c", 1)] } exCat
      ObjBuilder.empty).2.1 (by decide),
   (c4_not_found_asymmetry "test.t" "c_1" { fields := [("c", 1)] } exCat
      ObjBuilder.empty).2.2⟩

/-- C8: on an existing collection, a selector that is neither a string
nor an object fails with `IndexNotFound` and message "invalid index name
spec", and the catalog is unchanged. -/
theorem c8_invalid_selector (ns : String) (cat : IndexCatalog) (b : ObjBuilder) :
    (wrappedRun ns (mkDb cat) .other b).status =
      .error .IndexNotFound "invalid index name spec" ∧
    (wrappedRun ns (mkDb cat) .other b).db = mkDb cat :=
  ⟨rfl, rfl⟩

/-- C10: on an existing collection, `wrappedRun` records the prior index
count in the result builder regardless of the selector and of the
outcome, so even failing invocations carry `nIndexesWas`. -/
theorem c10_prior_count_always_recorded (ns : String) (cat : IndexCatalog)
    (sel : BSONIndexField) (b : ObjBuilder) :
    (wrappedRun ns (mkDb cat) sel b).builder.nIndexesWas = some (numIndexesTotal cat) := by
  cases sel with
  | str s =>
      by_cases hs : s = "*"
      · simp [wrappedRun, mkDb, hs]
      · cases hfind : findIndexByName cat s with
        | none => simp [wrappedRun, mkDb, hs, hfind]
        | some d =>
            by_cases hid : d.isIdIndex <;> simp [wrappedRun, mkDb, hs, hfind, hid]
  | obj k =>
      cases hfind : findIndexByKeyPattern cat k with
      | none => simp [wrappedRun, mkDb, hfind]
      | some d =>
          by_cases hid : d.isIdIndex <;> simp [wrappedRun, mkDb, hfind, hid]
  | other => simp [wrappedRun, mkDb]

/-- `firstIdx` finds nothing when no element satisfies the predicate. -/
theorem firstIdx_eq_none (p : Event → Bool) (l : List Event) (h : ∀ e ∈ l, p e = false) :
    firstIdx p l = none := by
  induction l with
  | nil => rfl
  | cons e es ih =>
      have he : p e = false := h e (List.mem_cons_self e es)
      have ht : firstIdx p es = none := ih (fun x hx => h x (List.mem_cons_of_mem e hx))
      simp [firstIdx, he, ht]

/-- An attempt whose gate passes and whose storage does not conflict has
trace lock, gate query, the `wrappedRun` events, then a suffix made only
of the op-observer append and the commit. -/
theorem attempt_events_form (env : AttemptEnv) (ns : String) (db : Option Database)
    (sel : BSONIndexField) (b : ObjBuilder)
    (h1 : gateFires env = false) (h2 : env.writeConflict = false) :
    ∃ suffix, (dropIndexesAttempt env ns db sel b).events =
      Event.lockDbX :: Event.checkCanAcceptWrites ::
        ((wrappedRun ns db sel b).events ++ suffix) ∧
      ∀ e ∈ suffix, e = Event.opLogAppend ∨ e = Event.commit := by
  unfold dropIndexesAttempt
  cases hst : (wrappedRun ns db sel b).status with
  | ok =>
      by_cases ho : env.opObserverOk = true
      · exact ⟨[Event.opLogAppend, Event.commit],
          by simp [h1, h2, hst, ho, AttemptResult.events], by simp⟩
      · exact ⟨[Event.opLogAppend],
          by simp [h1, h2, hst, ho, AttemptResult.events], by simp⟩
  | error c m =>
      exact ⟨[], by simp [h1, h2, hst, AttemptResult.events], by simp⟩

/-- A fully successful attempt returns `wrappedRun`'s builder and staged
database, with the op-log append and the commit closing the trace. -/
theorem attempt_success_events (env : AttemptEnv) (ns : String) (db : Option Database)
    (sel : BSONIndexField) (b : ObjBuilder)
    (h1 : gateFires env = false) (h2 : env.writeConflict = false)
    (h3 : (wrappedRun ns db sel b).status = .ok) (h4 : env.opObserverOk = true) :
    dropIndexesAttempt env ns db sel b =
      .done .ok (wrappedRun ns db sel b).builder (wrappedRun ns db sel b).db
        (Event.lockDbX :: Event.checkCanAcceptWrites ::
          ((wrappedRun ns db sel b).events ++ [Event.opLogAppend, Event.commit])) := by
  unfold dropIndexesAttempt
  simp [h1, h2, h3, h4]

/-- C5: the driver never surfaces a `WriteConflict` status; a
write-conflict attempt is discarded wholesale and the loop simply
retries on the original inputs; any attempt that returns terminates the
loop at once with exactly that attempt's status, builder and database
state. -/
theorem c5_write_conflict_retry :
    (∀ envs ns db sel b st bb db2,
      dropIndexesLoop envs ns db sel b = some (st, bb, db2) →
      ∀ m, st ≠ .error .WriteConflict m) ∧
    (∀ env rest ns db sel b, gateFires env = false → env.writeConflict = true →
      dropIndexesLoop (env :: rest) ns db sel b = dropIndexesLoop rest ns db sel b) ∧
    (∀ env rest ns db sel b st bb db2 evs,
      dropIndexesAttempt env ns db sel b = .done st bb db2 evs →
      dropIndexesLoop (env :: rest) ns db sel b = some (st, bb, db2)) := by
  refine ⟨?_, ?_, ?_⟩
  · intro envs
    induction envs with
    | nil => intro ns db sel b st bb db2 h; simp [dropIndexesLoop] at h
    | cons env rest ih =>
        intro ns db sel b st bb db2 h m
        cases hA : dropIndexesAttempt env ns db sel b with
        | conflict evs =>
            simp only [dropIndexesLoop] at h
            rw [hA] at h
            exact ih ns db sel b st bb db2 h m
        | done st2 b2 db2a evs =>
            simp only [dropIndexesLoop] at h
            rw [hA] at h
            simp at h
            obtain ⟨h1, h2, h3⟩ := h
            subst h1
            rcases attempt_done_status env ns db sel b st2 b2 db2a evs hA with hh | hh | hh
            · rw [hh]; simp
            · rw [hh]; simp
            · rw [hh]; exact wrappedRun_status_ne_wc ns db sel b m
  · intro env rest ns db sel b h1 h2
    simp only [dropIndexesLoop]
    rw [attempt_conflict env ns db sel b h1 h2]
  · intro env rest ns db sel b st bb db2 evs hA
    simp only [dropIndexesLoop]
    rw [hA]

/-- Witness for C5: a conflicting attempt is invisible, the following
clean attempt's result is returned, and it is not a write conflict. -/
theorem c5_write_conflict_retry_witness :
    (Status.ok ≠ .error .WriteConflict "conflict") ∧
    dropIndexesLoop [conflictEnv, benignEnv] "test.t" (mkDb exCat) (.str "*")
        ObjBuilder.empty =
      dropIndexesLoop [benignEnv] "test.t" (mkDb exCat) (.str "*") ObjBuilder.empty ∧
    dropIndexesLoop [benignEnv] "test.t" (mkDb exCat) (.str "*") ObjBuilder.empty =
      some (.ok,
        { nIndexesWas := some 3, msg := some "non-_id indexes dropped for collection" },
        mkDb [idDesc]) :=
  ⟨c5_write_conflict_retry.1 [benignEnv] "test.t" (mkDb exCat) (.str "*") ObjBuilder.empty
      .ok { nIndexesWas := some 3, msg := some "non-_id indexes dropped for collection" }
      (mkDb [idDesc]) (by decide) "conflict",
   c5_write_conflict_retry.2.1 conflictEnv [benignEnv] "test.t" (mkDb exCat) (.str "*")
      ObjBuilder.empty (by decide) (by decide),
   c5_write_conflict_retry.2.2 benignEnv [] "test.t" (mkDb exCat) (.str "*") ObjBuilder.empty
      .ok { nIndexesWas := some 3, msg := some "non-_id indexes dropped for collection" }
      (mkDb [idDesc])
      [.lockDbX, .checkCanAcceptWrites,
       .killBuilds { ns := some "test.t", name := none, key := none },
       .catalogRead, .catalogMutate, .opLogAppend, .commit] (by decide)⟩

/-- C6: when this attempt's writes are replicated and the node cannot
accept writes for the database, the attempt fails with the `NotMaster`
(NotPrimary) condition for every selector form, with builder and catalog
untouched and no catalog read, mutation or build cancellation in its
trace; and the gate is re-evaluated on every attempt: after any run of
discarded conflicting attempts, a not-primary attempt still surfaces
`NotMaster` from the loop. -/
theorem c6_not_primary_each_attempt :
    (∀ env ns db sel b, env.writesAreReplicated = true →
      env.canAcceptWritesForDatabase = false →
      dropIndexesAttempt env ns db sel b =
        .done (.error .NotMaster ("Not primary while dropping indexes in " ++ ns)) b db
          [.lockDbX, .checkCanAcceptWrites]) ∧
    (∀ pre env rest ns db sel b,
      (∀ e ∈ pre, gateFires e = false ∧ e.writeConflict = true) →
      env.writesAreReplicated = true → env.canAcceptWritesForDatabase = false →
      dropIndexesLoop (pre ++ env :: rest) ns db sel b =
        some (.error .NotMaster ("Not primary while dropping indexes in " ++ ns), b, db)) := by
  have hgate : ∀ env : AttemptEnv, env.writesAreReplicated = true →
      env.canAcceptWritesForDatabase = false → gateFires env = true := by
    intro env h1 h2
    simp [gateFires, h1, h2]
  refine ⟨?_, ?_⟩
  · intro env ns db sel b h1 h2
    exact attempt_notMaster env ns db sel b (hgate env h1 h2)
  · intro pre
    induction pre with
    | nil =>
        intro env rest ns db sel b hpre h1 h2
        simp only [List.nil_append, dropIndexesLoop]
        rw [attempt_notMaster env ns db sel b (hgate env h1 h2)]
    | cons e pre ih =>
        intro env rest ns db sel b hpre h1 h2
        have he := hpre e (List.mem_cons_self e pre)
        simp only [List.cons_append, dropIndexesLoop]
        rw [attempt_conflict e ns db sel b he.1 he.2]
        exact ih env rest ns db sel b (fun x hx => hpre x (List.mem_cons_of_mem e hx)) h1 h2

/-- Witness for C6: a not-primary attempt, alone and after a discarded
conflicting attempt. -/
theorem c6_not_primary_each_attempt_witness :
    dropIndexesAttempt notPrimaryEnv "test.t" (mkDb exCat) (.str "*") ObjBuilder.empty =
      .done (.error .NotMaster ("Not primary while dropping indexes in " ++ "test.t"))
        ObjBuilder.empty (mkDb exCat) [.lockDbX, .checkCanAcceptWrites] ∧
    dropIndexesLoop ([conflictEnv] ++ notPrimaryEnv :: []) "test.t" (mkDb exCat) (.str "*")
        ObjBuilder.empty =
      some (.error .NotMaster ("Not primary while dropping indexes in " ++ "test.t"),
        ObjBuilder.empty, mkDb exCat) :=
  ⟨c6_not_primary_each_attempt.1 notPrimaryEnv "test.t" (mkDb exCat) (.str "*")
      ObjBuilder.empty rfl rfl,
   c6_not_primary_each_attempt.2 [conflictEnv] notPrimaryEnv [] "test.t" (mkDb exCat)
      (.str "*") ObjBuilder.empty (by decide) rfl rfl⟩

/-- C7: every attempt that returns OK has a trace ending with the
durable op-log append immediately followed by the commit — the append
happens strictly before the mutation becomes visible, and neither event
occurs earlier in the trace; and when the durable recording fails on an
otherwise successful attempt, the attempt surfaces a failure, the
committed database state stays the pre-attempt one, and no commit is in
the trace. -/
theorem c7_durable_record_before_commit :
    (∀ env ns db sel b st bb db2 evs,
      dropIndexesAttempt env ns db sel b = .done st bb db2 evs → st = .ok →
      ∃ pre, evs = pre ++ [Event.opLogAppend, Event.commit] ∧
        Event.opLogAppend ∉ pre ∧ Event.commit ∉ pre) ∧
    (∀ env ns db sel b, gateFires env = false → env.writeConflict = false →
      (wrappedRun ns db sel b).status = .ok → env.opObserverOk = false →
      dropIndexesAttempt env ns db sel b =
        .done (.error .DurabilityFailure "onDropIndex failed")
          (wrappedRun ns db sel b).builder db
          (Event.lockDbX :: Event.checkCanAcceptWrites ::
            ((wrappedRun ns db sel b).events ++ [Event.opLogAppend]))) := by
  refine ⟨?_, ?_⟩
  · intro env ns db sel b st bb db2 evs hA hok
    subst hok
    unfold dropIndexesAttempt at hA
    by_cases hg : gateFires env = true
    · simp [hg] at hA
    · simp [hg] at hA
      by_cases hc : env.writeConflict = true
      · simp [hc] at hA
      · simp [hc] at hA
        cases hst : (wrappedRun ns db sel b).status with
        | ok =>
            rw [hst] at hA
            by_cases ho : env.opObserverOk = true
            · simp [ho] at hA
              obtain ⟨hb, hd, hevs⟩ := hA
              refine ⟨Event.lockDbX :: Event.checkCanAcceptWrites ::
                (wrappedRun ns db sel b).events, ?_, ?_, ?_⟩
              · rw [← hevs]; simp
              · intro hmem
                simp at hmem
                rcases wrappedRun_events_mem ns db sel b _ hmem with ⟨c, hcx⟩ | hcx | hcx <;>
                  simp at hcx
              · intro hmem
                simp at hmem
                rcases wrappedRun_events_mem ns db sel b _ hmem with ⟨c, hcx⟩ | hcx | hcx <;>
                  simp at hcx
            · simp [ho] at hA
        | error c m =>
            rw [hst] at hA
            simp at hA
  · intro env ns db sel b h1 h2 h3 h4
    unfold dropIndexesAttempt
    simp [h1, h2, h3, h4]

/-- Witness for C7: the successful wildcard attempt's trace ends with
append-then-commit, and the same attempt with a failing op observer
keeps the pre-attempt catalog and reports `DurabilityFailure`. -/
theorem c7_durable_record_before_commit_witness :
    (∃ pre, [Event.lockDbX, Event.checkCanAcceptWrites,
        Event.killBuilds { ns := some "test.t", name := none, key := none },
        Event.catalogRead, Event.catalogMutate, Event.opLogAppend, Event.commit] =
          pre ++ [Event.opLogAppend, Event.commit] ∧
        Event.opLogAppend ∉ pre ∧ Event.commit ∉ pre) ∧
    dropIndexesAttempt noDurabilityEnv "test.t" (mkDb exCat) (.str "*") ObjBuilder.empty =
      .done (.error .DurabilityFailure "onDropIndex failed")
        (wrappedRun "test.t" (mkDb exCat) (.str "*") ObjBuilder.empty).builder (mkDb exCat)
        (Event.lockDbX :: Event.checkCanAcceptWrites ::
          ((wrappedRun "test.t" (mkDb exCat) (.str "*") ObjBuilder.empty).events ++
            [Event.opLogAppend])) :=
  ⟨c7_durable_record_before_commit.1 benignEnv "test.t" (mkDb exCat) (.str "*")
      ObjBuilder.empty .ok
      { nIndexesWas := some 3, msg := some "non-_id indexes dropped for collection" }
      (mkDb [idDesc])
      [Event.lockDbX, Event.checkCanAcceptWrites,
        Event.killBuilds { ns := some "test.t", name := none, key := none },
        Event.catalogRead, Event.catalogMutate, Event.opLogAppend, Event.commit]
      (by decide) rfl,
   c7_durable_record_before_commit.2 noDurabilityEnv "test.t" (mkDb exCat) (.str "*")
      ObjBuilder.empty (by decide) (by decide) (by decide) (by decide)⟩

/-- C9 counterexample: on a concrete wildcard attempt the build
cancellation does not complete before the exclusive lock acquisition —
the lock is taken first and the cancellation runs under it, refuting the
claim as stated. -/
theorem c9_cancel_before_lock_refuted :
    cancelCompletesBeforeLock
      ((dropIndexesAttempt benignEnv "test.t" (mkDb exCat) (.str "*")
        ObjBuilder.empty).events) = false := by decide

/-- C9 (amended): in every attempt, any build cancellation happens
strictly after the exclusive database lock acquisition (it runs under
the lock) and strictly before any index-catalog read or mutation. -/
theorem c9_cancel_after_lock_before_catalog (env : AttemptEnv) (ns : String)
    (db : Option Database) (sel : BSONIndexField) (b : ObjBuilder) :
    killAfterLockBeforeCatalog ((dropIndexesAttempt env ns db sel b).events) = true := by
  by_cases hg : gateFires env = true
  · rw [attempt_notMaster env ns db sel b hg]
    rfl
  · have hgf : gateFires env = false := by simp_all
    by_cases hc : env.writeConflict = true
    · rw [attempt_conflict env ns db sel b hgf hc]
      rfl
    · have hcf : env.writeConflict = false := by simp_all
      obtain ⟨suffix, hev, hsuf⟩ := attempt_events_form env ns db sel b hgf hcf
      rw [hev]
      rcases wrappedRun_events_kill_shape ns db sel b with hnone | ⟨c, t, hsh⟩
      · have hno : firstIdx isKillEvent
            (Event.lockDbX :: Event.checkCanAcceptWrites ::
              ((wrappedRun ns db sel b).events ++ suffix)) = none := by
          apply firstIdx_eq_none
          intro e he
          simp at he
          rcases he with rfl | rfl | he | he
          · rfl
          · rfl
          · cases e with
            | killBuilds c => exact absurd he (hnone c)
            | lockDbX => rfl
            | checkCanAcceptWrites => rfl
            | catalogRead => rfl
            | catalogMutate => rfl
            | opLogAppend => rfl
            | commit => rfl
          · rcases hsuf e he with rfl | rfl <;> rfl
        simp [killAfterLockBeforeCatalog, hno]
      · rw [hsh]
        simp [killAfterLockBeforeCatalog, firstIdx, isKillEvent, isLockEvent, isCatalogEvent]

end Mongo
